import Mathlib

/-!
Formal model of the contact-form component in
`src/components/sections/Contact.tsx` (a lead-generation form for a vehicle
buy-back site).  The file contains two near-duplicate variants of the same
component; the first variant is modelled by the unsuffixed definitions below
and the second by the definitions carrying a `2` suffix.

The model covers: the `contactSchema` zod validation schema, the error-map
construction in `handleSubmit`, attachment staging (`handleFileChange`,
`removeFile`), and the submit flow (in-flight flag, network outcome
interpretation, state resets, toast notifications).  JavaScript string
trimming and the zod e-mail validator are modelled by structurally recursive
functions over the underlying character lists so that everything evaluates
inside the kernel.
-/

namespace ContactForm

/-- The whitespace class used by JavaScript `String.prototype.trim`
(ECMAScript WhiteSpace plus LineTerminator code points). -/
def isJsWhitespace (c : Char) : Bool :=
  c = ' ' || c = '\t' || c = '\n' || c = '\r' ||
  c = Char.ofNat 0x0b || c = Char.ofNat 0x0c || c = Char.ofNat 0xa0 ||
  c = Char.ofNat 0xfeff || c = Char.ofNat 0x1680 ||
  (0x2000 ≤ c.toNat && c.toNat ≤ 0x200a) ||
  c = Char.ofNat 0x2028 || c = Char.ofNat 0x2029 || c = Char.ofNat 0x202f ||
  c = Char.ofNat 0x205f || c = Char.ofNat 0x3000

/-- Remove leading and trailing JavaScript whitespace from a character list. -/
def trimList (l : List Char) : List Char :=
  ((l.dropWhile isJsWhitespace).reverse.dropWhile isJsWhitespace).reverse

/-- JavaScript `String.prototype.trim`, as invoked by zod's `.trim()`
transform in `contactSchema`. -/
def jsTrim (s : String) : String :=
  String.mk (trimList s.data)

/-- Split a character list at every occurrence of `sep` (auxiliary). -/
def splitOnCharAux (sep : Char) : List Char → List Char → List (List Char)
  | [], acc => [acc.reverse]
  | c :: rest, acc =>
    if c = sep then acc.reverse :: splitOnCharAux sep rest []
    else splitOnCharAux sep rest (c :: acc)

/-- Split a character list at every occurrence of `sep`. -/
def splitOnChar (sep : Char) (l : List Char) : List (List Char) :=
  splitOnCharAux sep l []

/-- The apostrophe character (allowed inside an e-mail local part). -/
def apostropheChar : Char := Char.ofNat 39

/-- Characters admitted anywhere in the local part of an e-mail address. -/
def isLocalChar (c : Char) : Bool :=
  c.isAlphanum || c = '_' || c = apostropheChar || c = '+' || c = '-' || c = '.'

/-- Characters admitted as the final character of an e-mail local part. -/
def isLocalEndChar (c : Char) : Bool :=
  c.isAlphanum || c = '_' || c = '+' || c = '-'

/-- Does the character list contain two consecutive dots? -/
def hasDoubleDot : List Char → Bool
  | c₁ :: c₂ :: rest => (c₁ = '.' && c₂ = '.') || hasDoubleDot (c₂ :: rest)
  | _ => false

/-- Validity of the local part (before the `@`) of an e-mail address. -/
def localPartOk (l : List Char) : Bool :=
  match l with
  | [] => false
  | c :: _ =>
    !(c = '.') && l.all isLocalChar &&
    (match l.getLast? with
     | some e => isLocalEndChar e
     | none => false) &&
    !hasDoubleDot l

/-- Validity of one non-final domain label of an e-mail address. -/
def labelOk (l : List Char) : Bool :=
  match l with
  | [] => false
  | c :: rest => c.isAlphanum && rest.all (fun d => d.isAlphanum || d = '-')

/-- Validity of the final (top-level) domain label: at least two letters. -/
def tldOk (l : List Char) : Bool :=
  2 ≤ l.length && l.all (fun c => c.isAlpha)

/-- Validity of the domain part (after the `@`) of an e-mail address. -/
def domainPartOk (d : List Char) : Bool :=
  match (splitOnChar '.' d).reverse with
  | [] => false
  | tld :: labelsRev => !labelsRev.isEmpty && tldOk tld && labelsRev.all labelOk

/-- Modelled from the spec: the source delegates "email must be well-formed"
to zod's `z.string().email()` validator (the zod library is a dependency and
its code is not part of this repository).  This is that validator's e-mail
regular expression, transcribed as a decision procedure: a local part of
alphanumerics and `_ ' + - .` not starting with a dot, containing no two
consecutive dots and not ending in a dot or apostrophe, followed by `@` and
one or more alphanumeric-and-hyphen labels, ending in an alphabetic top-level
label of length at least two. -/
def emailCheck (s : String) : Bool :=
  match splitOnChar '@' s.data with
  | [localPart, domainPart] => localPartOk localPart && domainPartOk domainPart
  | _ => false

/-- The six required form fields validated by `contactSchema`. -/
inductive Field
  | name
  | email
  | phone
  | car_make_model
  | year
  | mileage
deriving DecidableEq

/-- The key string of a field, as used in the zod object schema and in the
`errors` record. -/
def Field.key : Field → String
  | Field.name => "name"
  | Field.email => "email"
  | Field.phone => "phone"
  | Field.car_make_model => "car_make_model"
  | Field.year => "year"
  | Field.mileage => "mileage"

/-- The fields in the order the zod object schema declares them. -/
def fields : List Field :=
  [Field.name, Field.email, Field.phone, Field.car_make_model, Field.year, Field.mileage]

/-- The values the form holds for the six required fields (the values
`handleSubmit` reads from the `FormData` of the form element). -/
structure FormValues where
  name : String
  email : String
  phone : String
  car_make_model : String
  year : String
  mileage : String
deriving DecidableEq

/-- Projection of a form-value record at a field. -/
def FormValues.get : FormValues → Field → String
  | fv, Field.name => fv.name
  | fv, Field.email => fv.email
  | fv, Field.phone => fv.phone
  | fv, Field.car_make_model => fv.car_make_model
  | fv, Field.year => fv.year
  | fv, Field.mileage => fv.mileage

/-- Update of a form-value record at a field (the user editing an input). -/
def FormValues.set : FormValues → Field → String → FormValues
  | fv, Field.name, v => { fv with name := v }
  | fv, Field.email, v => { fv with email := v }
  | fv, Field.phone, v => { fv with phone := v }
  | fv, Field.car_make_model, v => { fv with car_make_model := v }
  | fv, Field.year, v => { fv with year := v }
  | fv, Field.mileage, v => { fv with mileage := v }

/-- The form value record with every input empty (the state of the form after
`form.reset()`, since no required input declares a default value). -/
def emptyFormValues : FormValues :=
  { name := "", email := "", phone := "", car_make_model := "", year := "", mileage := "" }

/-- `contactSchema`, variant 1 (source lines 11-18): the per-field zod check.
Each field first applies `.trim()` and then its checks in declaration order;
the result is `none` on success and the first failing check's message
otherwise. -/
def contactSchemaCheck (f : Field) (v : String) : Option String :=
  match f with
  | Field.name =>
    if (jsTrim v).length < 2 then some "Ime mora imati najmanje 2 znaka"
    else if 100 < (jsTrim v).length then some "Ime može imati najviše 100 znakova"
    else none
  | Field.email =>
    if emailCheck (jsTrim v) then none else some "Neispravna email adresa"
  | Field.phone =>
    if (jsTrim v).length < 6 then some "Broj telefona mora imati najmanje 6 znamenki"
    else none
  | Field.car_make_model =>
    if (jsTrim v).length < 2 then some "Unesite marku i model" else none
  | Field.year =>
    if (jsTrim v).length < 4 then some "Unesite godinu (npr. 2020)" else none
  | Field.mileage =>
    if (jsTrim v).length < 1 then some "Unesite kilometražu" else none

/-- One zod issue, as consumed by the `validation.error.issues.forEach` loop:
a path into the object and a message. -/
structure Issue where
  path : List String
  message : String
deriving DecidableEq

/-- The issue list produced by `contactSchema.safeParse(formValues)`:
zod checks every declared field (no short-circuiting across fields) and
reports one issue per failing check, with path `[key]`. -/
def contactSchemaIssues (fv : FormValues) : List Issue :=
  fields.filterMap fun f =>
    (contactSchemaCheck f (fv.get f)).map fun m => { path := [f.key], message := m }

/-- JavaScript object-record assignment `m[k] = v`: an existing key is
overwritten in place, a new key is appended. -/
def insertA (m : List (String × String)) (k v : String) : List (String × String) :=
  match m with
  | [] => [(k, v)]
  | q :: rest => if q.1 = k then (k, v) :: rest else q :: insertA rest k v

/-- The `newErrors` record built by `handleSubmit` from the zod issues
(source lines 67-72): for each issue, if `err.path[0]` is truthy (non-missing
and non-empty) the record at that key is set to the issue message. -/
def buildErrors : List Issue → List (String × String) → List (String × String)
  | [], m => m
  | i :: rest, m =>
    match i.path with
    | [] => buildErrors rest m
    | k :: _ =>
      if k = "" then buildErrors rest m
      else buildErrors rest (insertA m k i.message)

/-- The error record `handleSubmit` stores on a validation failure. -/
def newErrors (fv : FormValues) : List (String × String) :=
  buildErrors (contactSchemaIssues fv) []

/-- Toast severity (the `variant` argument of the toast collaborator). -/
inductive Severity
  | normal
  | destructive
deriving DecidableEq

/-- One toast notification: severity, title and description. -/
structure Toast where
  variant : Severity := Severity.normal
  title : String
  description : String
deriving DecidableEq

/-- One staged attachment: the file handle's name and its size in bytes. -/
structure Attachment where
  name : String
  size : Nat
deriving DecidableEq

/-- The component state: the form input values, the staged attachment list
(`uploadedFiles`), the validation error record (`errors`) and the in-flight
flag (`isSubmitting`). -/
structure ComponentState where
  fieldValues : FormValues
  uploadedFiles : List Attachment
  errors : List (String × String)
  isSubmitting : Bool
deriving DecidableEq

/-- The state of a freshly mounted component. -/
def initialState : ComponentState :=
  { fieldValues := emptyFormValues, uploadedFiles := [], errors := [], isSubmitting := false }

/-- The per-file size cap for attachments: `10 * 1024 * 1024` bytes. -/
def maxFileSize : Nat := 10 * 1024 * 1024

/-- The toast emitted for one oversized file in `handleFileChange`. -/
def rejectToast (f : Attachment) : Toast :=
  { variant := Severity.destructive, title := "Greška",
    description := "Slika " ++ f.name ++ " je prevelika. Maksimalna veličina je 10MB." }

/-- The filter pass of `handleFileChange`: each file with `size > maxFileSize`
is dropped and produces one rejection toast; the rest are kept in order. -/
def sift : List Attachment → List Attachment × List Toast
  | [] => ([], [])
  | f :: rest =>
    let p := sift rest
    if maxFileSize < f.size then (p.1, rejectToast f :: p.2)
    else (f :: p.1, p.2)

/-- `handleFileChange`, variant 1 (source lines 27-41): filter the selected
files by the size cap, toast once per rejected file, and append the accepted
files to the staged list. -/
def handleFileChange (st : ComponentState) (files : List Attachment) :
    ComponentState × List Toast :=
  let p := sift files
  ({ st with uploadedFiles := st.uploadedFiles ++ p.1 }, p.2)

/-- `prev.filter((_, i) => i !== index)`: keep every element whose position
differs from `index`. -/
def filterIdx (l : List Attachment) (index : Nat) : List Attachment :=
  ((l.enum).filter fun q => decide (q.1 ≠ index)).map Prod.snd

/-- `removeFile`, variant 1 (source lines 43-45). -/
def removeFile (st : ComponentState) (index : Nat) : ComponentState :=
  { st with uploadedFiles := filterIdx st.uploadedFiles index }

/-- The JSON body of a response from the forms endpoint, as read by
variant 1: the `success` flag and the optional `message`. -/
structure JsonBody where
  success : Bool
  message : Option String
deriving DecidableEq

/-- The outcome of the awaited `fetch`: either a response (with its HTTP
`ok` status and its JSON body, `none` when `response.json()` throws) or a
transport-level error. -/
inductive NetResult
  | response (ok : Bool) (body : Option JsonBody)
  | transportError
deriving DecidableEq

/-- Variant 1's success interpretation (source line 93): the truthiness of
`data.success` in the parsed JSON; an unparsable body or a thrown transport
error is a failure. -/
def netSuccess : NetResult → Bool
  | NetResult.response _ (some body) => body.success
  | NetResult.response _ none => false
  | NetResult.transportError => false

/-- Variant 2's success interpretation (source line 546): `response.ok`,
i.e. the HTTP status class alone. -/
def netSuccess2 : NetResult → Bool
  | NetResult.response ok _ => ok
  | NetResult.transportError => false

/-- The toast shown when validation fails. -/
def validationToast : Toast :=
  { variant := Severity.destructive, title := "Greška u formi",
    description := "Molimo ispravite označena polja prije slanja." }

/-- The toast shown on a successful submission. -/
def successToast : Toast :=
  { title := "✅ Poruka uspješno poslana!",
    description := "Primili ste potvrdu na vašu email adresu. Javit ćemo vam se uskoro." }

/-- The generic toast shown on a failed submission; it is a fixed constant
and carries nothing of the underlying error. -/
def failToast : Toast :=
  { variant := Severity.destructive, title := "❌ Greška pri slanju",
    description := "Molimo pokušajte ponovno ili nas nazovite direktno." }

/-- The synchronous prefix of `handleSubmit` variant 1 (source lines 47-81),
up to the suspension point: clear the errors, raise the in-flight flag, and
run the schema.  Returns the state at the suspension point, the toasts
emitted so far, and whether a network request was issued (validation
passed). -/
def beginSubmit (st : ComponentState) : ComponentState × List Toast × Bool :=
  let st1 : ComponentState := { st with errors := [], isSubmitting := true }
  let issues := contactSchemaIssues st1.fieldValues
  if issues.isEmpty then
    (st1, ([], true))
  else
    ({ st1 with errors := buildErrors issues [], isSubmitting := false },
     ([validationToast], false))

/-- The continuation of `handleSubmit` variant 1 after the awaited `fetch`
(source lines 85-114): on success reset the form, clear the staged files and
the errors; otherwise toast the generic failure; in both cases the `finally`
block lowers the in-flight flag. -/
def resolveSubmit (st : ComponentState) (net : NetResult) : ComponentState × List Toast :=
  if netSuccess net then
    ({ fieldValues := emptyFormValues, uploadedFiles := [], errors := [],
       isSubmitting := false }, [successToast])
  else
    ({ st with isSubmitting := false }, [failToast])

/-- `handleSubmit` variant 1, as one whole run: the synchronous prefix
followed, when a request was issued, by the resolution of the network
outcome.  The third component records whether the network was reached. -/
def handleSubmit (st : ComponentState) (net : NetResult) :
    ComponentState × List Toast × Bool :=
  let r := beginSubmit st
  if r.2.2 then
    let r2 := resolveSubmit r.1 net
    (r2.1, (r.2.1 ++ r2.2, true))
  else
    (r.1, (r.2.1, false))

/-- A submit request arriving at the button: the button carries
`disabled={isSubmitting}`, so while a submission is in flight the event is
not dispatched at all. -/
def submitClick (st : ComponentState) (net : NetResult) :
    ComponentState × List Toast × Bool :=
  if st.isSubmitting then (st, ([], false)) else handleSubmit st net

/-- The UI events that mutate the component state. -/
inductive Action
  | edit (f : Field) (v : String)
  | fileChange (files : List Attachment)
  | removeAt (index : Nat)
  | submit (net : NetResult)

/-- One step of the component under a UI event (variant 1). -/
def step (st : ComponentState) (a : Action) : ComponentState × List Toast :=
  match a with
  | Action.edit f v => ({ st with fieldValues := st.fieldValues.set f v }, [])
  | Action.fileChange files => handleFileChange st files
  | Action.removeAt i => (removeFile st i, [])
  | Action.submit net =>
    let r := submitClick st net
    (r.1, r.2.1)

/-- Modelled from the spec: the §4.1 validation rules stated declaratively —
"name length 2-100; email must be well-formed; phone length ≥6;
car_make_model length ≥2; year length ≥4; mileage non-empty", each applied
to the trimmed value. -/
def specFieldOk (f : Field) (v : String) : Prop :=
  match f with
  | Field.name => 2 ≤ (jsTrim v).length ∧ (jsTrim v).length ≤ 100
  | Field.email => emailCheck (jsTrim v) = true
  | Field.phone => 6 ≤ (jsTrim v).length
  | Field.car_make_model => 2 ≤ (jsTrim v).length
  | Field.year => 4 ≤ (jsTrim v).length
  | Field.mileage => 1 ≤ (jsTrim v).length

/-- The key strings of the six schema fields. -/
def fieldKeys : List String := fields.map Field.key

/-- The invariant that every key of the error record is a schema field key. -/
def errorKeysOk (st : ComponentState) : Bool :=
  st.errors.all fun q => decide (q.1 ∈ fieldKeys)

/-- `contactSchema`, variant 2 (source lines 463-470); textually identical to
variant 1's schema. -/
def contactSchemaCheck2 (f : Field) (v : String) : Option String :=
  match f with
  | Field.name =>
    if (jsTrim v).length < 2 then some "Ime mora imati najmanje 2 znaka"
    else if 100 < (jsTrim v).length then some "Ime može imati najviše 100 znakova"
    else none
  | Field.email =>
    if emailCheck (jsTrim v) then none else some "Neispravna email adresa"
  | Field.phone =>
    if (jsTrim v).length < 6 then some "Broj telefona mora imati najmanje 6 znamenki"
    else none
  | Field.car_make_model =>
    if (jsTrim v).length < 2 then some "Unesite marku i model" else none
  | Field.year =>
    if (jsTrim v).length < 4 then some "Unesite godinu (npr. 2020)" else none
  | Field.mileage =>
    if (jsTrim v).length < 1 then some "Unesite kilometražu" else none

/-- Variant 2's `safeParse` issue list. -/
def contactSchemaIssues2 (fv : FormValues) : List Issue :=
  fields.filterMap fun f =>
    (contactSchemaCheck2 f (fv.get f)).map fun m => { path := [f.key], message := m }

/-- Variant 2's filter pass over the selected files (source lines 479-493);
textually identical to variant 1's. -/
def sift2 : List Attachment → List Attachment × List Toast
  | [] => ([], [])
  | f :: rest =>
    let p := sift2 rest
    if maxFileSize < f.size then (p.1, rejectToast f :: p.2)
    else (f :: p.1, p.2)

/-- `handleFileChange`, variant 2. -/
def handleFileChange2 (st : ComponentState) (files : List Attachment) :
    ComponentState × List Toast :=
  let p := sift2 files
  ({ st with uploadedFiles := st.uploadedFiles ++ p.1 }, p.2)

/-- Variant 2's copy of the index filter. -/
def filterIdx2 (l : List Attachment) (index : Nat) : List Attachment :=
  ((l.enum).filter fun q => decide (q.1 ≠ index)).map Prod.snd

/-- `removeFile`, variant 2 (source lines 495-497). -/
def removeFile2 (st : ComponentState) (index : Nat) : ComponentState :=
  { st with uploadedFiles := filterIdx2 st.uploadedFiles index }

/-- The synchronous prefix of `handleSubmit` variant 2 (source lines
499-533); textually identical to variant 1's. -/
def beginSubmit2 (st : ComponentState) : ComponentState × List Toast × Bool :=
  let st1 : ComponentState := { st with errors := [], isSubmitting := true }
  let issues := contactSchemaIssues2 st1.fieldValues
  if issues.isEmpty then
    (st1, ([], true))
  else
    ({ st1 with errors := buildErrors issues [], isSubmitting := false },
     ([validationToast], false))

/-- The continuation of `handleSubmit` variant 2 after the awaited `fetch`
(source lines 540-566): success is judged by `response.ok`; the state
updates and toasts of each branch are identical to variant 1's. -/
def resolveSubmit2 (st : ComponentState) (net : NetResult) : ComponentState × List Toast :=
  if netSuccess2 net then
    ({ fieldValues := emptyFormValues, uploadedFiles := [], errors := [],
       isSubmitting := false }, [successToast])
  else
    ({ st with isSubmitting := false }, [failToast])

/-- `handleSubmit` variant 2, as one whole run. -/
def handleSubmit2 (st : ComponentState) (net : NetResult) :
    ComponentState × List Toast × Bool :=
  let r := beginSubmit2 st
  if r.2.2 then
    let r2 := resolveSubmit2 r.1 net
    (r2.1, (r.2.1 ++ r2.2, true))
  else
    (r.1, (r.2.1, false))

/-- A submit request arriving at variant 2's button (also guarded by
`disabled={isSubmitting}`). -/
def submitClick2 (st : ComponentState) (net : NetResult) :
    ComponentState × List Toast × Bool :=
  if st.isSubmitting then (st, ([], false)) else handleSubmit2 st net

/-- The outbound request: the names of the fixed metadata fields, the form
field values, and the attachment binaries included in the body. -/
structure Request where
  metadataKeys : List String
  formFields : FormValues
  attachments : List Attachment
deriving DecidableEq

/-- The metadata field names variant 1 sends (hidden inputs plus the hidden
autoresponse textarea, source lines 155-201). -/
def metadataKeys1 : List String :=
  ["access_key", "subject", "from_name", "redirect", "message", "autoresponse"]

/-- The metadata field names variant 2 sends (source lines 607-718). -/
def metadataKeys2 : List String :=
  ["access_key", "subject", "from_name", "autoresponse", "replyto", "template",
   "email_template", "autoresponse_template"]

/-- The request variant 1 posts: no attachment binaries are appended (the
source removed them, citing provider limits, source line 83). -/
def buildRequest (st : ComponentState) : Request :=
  { metadataKeys := metadataKeys1, formFields := st.fieldValues, attachments := [] }

/-- The request variant 2 posts: every staged file is appended under
`attachment_{index}` (source lines 536-538). -/
def buildRequest2 (st : ComponentState) : Request :=
  { metadataKeys := metadataKeys2, formFields := st.fieldValues,
    attachments := st.uploadedFiles }

/-- The spec's concrete valid scenario: Ana's form values. -/
def anaValues : FormValues :=
  { name := "Ana Anić", email := "ana@example.com", phone := "0991234567",
    car_make_model := "VW Golf", year := "2015", mileage := "150000" }

/-- A component state holding Ana's values and one staged 9MB picture. -/
def anaState : ComponentState :=
  { fieldValues := anaValues,
    uploadedFiles := [{ name := "slika1.jpg", size := 9 * 1024 * 1024 }],
    errors := [], isSubmitting := false }

/-- Ana's values with the e-mail replaced by a malformed one. -/
def badValues : FormValues :=
  { anaValues with email := "not-an-email" }

/-- A component state holding the invalid values. -/
def badState : ComponentState :=
  { anaState with fieldValues := badValues }

/-- A state with a submission in flight. -/
def busyState : ComponentState :=
  { anaState with isSubmitting := true }

example : emailCheck "ana@example.com" = true := by decide
example : emailCheck "not-an-email" = false := by decide
example : contactSchemaIssues anaValues = [] := by decide
example : newErrors badValues = [("email", "Neispravna email adresa")] := by decide
example : jsTrim "  ab " = "ab" := by decide

/-- The filter pass of `handleFileChange` keeps exactly the files within the
size cap, in order, and toasts once per oversized file, in order. -/
theorem sift_spec (l : List Attachment) :
    sift l = (l.filter fun f => decide (f.size ≤ maxFileSize),
              (l.filter fun f => decide (maxFileSize < f.size)).map rejectToast) := by
  induction l with
  | nil => rfl
  | cons f t ih =>
    simp only [sift, List.filter_cons, ih]
    by_cases h : maxFileSize < f.size
    · have h2 : ¬ f.size ≤ maxFileSize := by omega
      simp [h, h2]
    · have h2 : f.size ≤ maxFileSize := by omega
      simp [h, h2]

/-- The kept and rejected parts of a file list partition its length. -/
theorem length_filter_partition (l : List Attachment) :
    (l.filter fun f => decide (f.size ≤ maxFileSize)).length
      + (l.filter fun f => decide (maxFileSize < f.size)).length = l.length := by
  induction l with
  | nil => rfl
  | cons f t ih =>
    simp only [List.filter_cons]
    by_cases h : maxFileSize < f.size
    · have h2 : ¬ f.size ≤ maxFileSize := by omega
      simp [h, h2]
      omega
    · have h2 : f.size ≤ maxFileSize := by omega
      simp [h, h2]
      omega

/-- Claim C5: for every prior state and every selected file list,
`AddAttachments` appends exactly the non-oversized files, in their original
order, after the existing staged files; the staged list grows by `N - K`
(stated additively); and exactly `K` rejection toasts are emitted, one per
oversized file, in order. -/
theorem contact_add_attachments_filter (st : ComponentState) (files : List Attachment) :
    (handleFileChange st files).1.uploadedFiles
        = st.uploadedFiles ++ files.filter (fun f => decide (f.size ≤ maxFileSize))
    ∧ (handleFileChange st files).2
        = (files.filter fun f => decide (maxFileSize < f.size)).map rejectToast
    ∧ (handleFileChange st files).1.uploadedFiles.length
        + (files.filter fun f => decide (maxFileSize < f.size)).length
        = st.uploadedFiles.length + files.length
    ∧ (handleFileChange st files).2.length
        = (files.filter fun f => decide (maxFileSize < f.size)).length := by
  have hs := sift_spec files
  have hlen := length_filter_partition files
  refine ⟨?_, ?_, ?_, ?_⟩
  · simp [handleFileChange, hs]
  · simp [handleFileChange, hs]
  · simp only [handleFileChange, hs, List.length_append]
    omega
  · simp [handleFileChange, hs]

/-- Claim C2: with valid field values and a network outcome the component
interprets as success, `handleSubmit` ends in the fully cleared state (empty
form, no staged attachment, no validation error, flag lowered) and emits
exactly the success toast. -/
theorem contact_submit_success_clears (st : ComponentState) (net : NetResult)
    (hv : contactSchemaIssues st.fieldValues = [])
    (hs : netSuccess net = true) :
    handleSubmit st net
      = ({ fieldValues := emptyFormValues, uploadedFiles := [], errors := [],
           isSubmitting := false },
         ([successToast], true)) := by
  simp [handleSubmit, beginSubmit, resolveSubmit, hv, hs]

theorem contact_submit_success_clears_witness :
    handleSubmit anaState (NetResult.response true (some { success := true, message := none }))
      = ({ fieldValues := emptyFormValues, uploadedFiles := [], errors := [],
           isSubmitting := false },
         ([successToast], true)) :=
  contact_submit_success_clears anaState
    (NetResult.response true (some { success := true, message := none }))
    (by decide) (by decide)

/-- Claim C3: with valid field values and a network outcome the component
interprets as failure (unsuccessful response body, unparsable body, or a
thrown transport error), `handleSubmit` keeps the field values and the staged
attachments, lowers the in-flight flag, and emits exactly the one fixed
generic failure toast, which is a constant independent of the error. -/
theorem contact_submit_failure_preserves (st : ComponentState) (net : NetResult)
    (hv : contactSchemaIssues st.fieldValues = [])
    (hf : netSuccess net = false) :
    handleSubmit st net
      = ({ st with errors := [], isSubmitting := false }, ([failToast], true)) := by
  simp [handleSubmit, beginSubmit, resolveSubmit, hv, hf]

theorem contact_submit_failure_preserves_witness :
    handleSubmit anaState NetResult.transportError
      = ({ anaState with errors := [], isSubmitting := false }, ([failToast], true)) :=
  contact_submit_failure_preserves anaState NetResult.transportError
    (by decide) (by decide)

/-- Claim C4: the in-flight flag is `false` on every exit path of
`handleSubmit` (success, validation failure, submission failure, transport
error); a submit request arriving while a submission is in flight is ignored
outright (state untouched, no toast, no network request); and a validated
submission really is in flight (flag raised) at the suspension point. -/
theorem contact_submit_inflight_guard :
    (∀ st net, (handleSubmit st net).1.isSubmitting = false)
    ∧ (∀ st net, st.isSubmitting = true → submitClick st net = (st, ([], false)))
    ∧ (∀ st, (contactSchemaIssues st.fieldValues).isEmpty = true →
        (beginSubmit st).1.isSubmitting = true) := by
  refine ⟨?_, ?_, ?_⟩
  · intro st net
    by_cases hv : (contactSchemaIssues st.fieldValues).isEmpty
    · by_cases hn : netSuccess net <;>
        simp [handleSubmit, beginSubmit, resolveSubmit, hv, hn]
    · simp [handleSubmit, beginSubmit, hv]
  · intro st net h
    simp [submitClick, h]
  · intro st h
    simp [beginSubmit, h]

theorem contact_submit_inflight_guard_witness :
    submitClick busyState NetResult.transportError = (busyState, ([], false))
    ∧ (beginSubmit anaState).1.isSubmitting = true :=
  ⟨contact_submit_inflight_guard.2.1 busyState NetResult.transportError (by decide),
   contact_submit_inflight_guard.2.2 anaState (by decide)⟩

/-- Filtering an enumerated list by position, characterised: the element at
position `i` (relative to the start index `n`) is removed, everything else is
kept in order. -/
theorem filter_enumFrom_spec (i : Nat) (l : List Attachment) :
    ∀ n, ((List.enumFrom n l).filter fun q => decide (q.1 ≠ i)).map Prod.snd
      = if i < n then l else l.take (i - n) ++ l.drop (i - n + 1) := by
  induction l with
  | nil =>
    intro n
    simp only [List.enumFrom, List.filter_nil, List.map_nil, List.take_nil,
      List.drop_nil, List.append_nil]
    split <;> rfl
  | cons a t ih =>
    intro n
    rw [List.enumFrom_cons, List.filter_cons]
    by_cases h : n = i
    · subst h
      have hd : decide ((n, a).1 ≠ n) = false := by simp
      rw [hd]
      simp only [Bool.false_eq_true, if_false]
      rw [ih (n + 1)]
      simp [Nat.lt_succ_self, Nat.lt_irrefl, Nat.sub_self]
    · have hd : decide ((n, a).1 ≠ i) = true := by simp [h]
      rw [hd, if_pos rfl, List.map_cons, ih (n + 1)]
      by_cases hlt : i < n
      · have h1 : i < n + 1 := by omega
        simp [hlt, h1]
      · have h1 : ¬ i < n + 1 := by omega
        have h2 : i - n = (i - (n + 1)) + 1 := by omega
        simp only [hlt, h1, if_false, h2, List.take_succ_cons, List.drop_succ_cons,
          List.cons_append]

/-- `filterIdx` is exactly take-before and drop-through the given index. -/
theorem filterIdx_spec (l : List Attachment) (i : Nat) :
    filterIdx l i = l.take i ++ l.drop (i + 1) := by
  have h := filter_enumFrom_spec i l 0
  simp only [Nat.not_lt_zero, if_false, Nat.sub_zero] at h
  simpa [filterIdx, List.enum] using h

/-- Claim C6: `RemoveAttachment i` removes exactly the element at position
`i` when `i` is in range (the remaining files are the files before `i`
followed by the files after `i`, keeping their relative order), and is a
complete no-op on the state when `i` is out of range. -/
theorem contact_remove_attachment (st : ComponentState) (i : Nat) :
    (i < st.uploadedFiles.length →
      (removeFile st i).uploadedFiles
        = st.uploadedFiles.take i ++ st.uploadedFiles.drop (i + 1))
    ∧ (st.uploadedFiles.length ≤ i → removeFile st i = st) := by
  constructor
  · intro _
    simp [removeFile, filterIdx_spec]
  · intro h
    have : filterIdx st.uploadedFiles i = st.uploadedFiles := by
      rw [filterIdx_spec, List.take_of_length_le h,
        List.drop_eq_nil_of_le (by omega), List.append_nil]
    cases st with
    | mk fv files errs flag =>
      simp only [removeFile] at this ⊢
      rw [this]

/-- A state with three staged files, for exercising removal. -/
def threeFileState : ComponentState :=
  { anaState with
    uploadedFiles := [{ name := "a.jpg", size := 100 },
                      { name := "b.jpg", size := 200 },
                      { name := "c.jpg", size := 300 }] }

theorem contact_remove_attachment_witness :
    (removeFile threeFileState 1).uploadedFiles
        = threeFileState.uploadedFiles.take 1 ++ threeFileState.uploadedFiles.drop 2
    ∧ removeFile threeFileState 5 = threeFileState :=
  ⟨(contact_remove_attachment threeFileState 1).1 (by decide),
   (contact_remove_attachment threeFileState 5).2 (by decide)⟩

/-- The head surviving `dropWhile p` fails `p`. -/
theorem dropWhile_head_false (p : Char → Bool) :
    ∀ (l : List Char) (c : Char) (t : List Char),
      l.dropWhile p = c :: t → p c = false := by
  intro l
  induction l with
  | nil =>
    intro c t h
    simp [List.dropWhile] at h
  | cons a l ih =>
    intro c t h
    rw [List.dropWhile_cons] at h
    by_cases ha : p a = true
    · rw [if_pos ha] at h
      exact ih c t h
    · rw [if_neg ha] at h
      cases h
      simpa using ha

/-- `dropWhile` is idempotent. -/
theorem dropWhile_idem (p : Char → Bool) (l : List Char) :
    (l.dropWhile p).dropWhile p = l.dropWhile p := by
  cases h : l.dropWhile p with
  | nil => rfl
  | cons c t =>
    rw [List.dropWhile_cons, dropWhile_head_false p l c t h]
    simp

/-- A nonempty `dropWhile` keeps the last element. -/
theorem dropWhile_getLast? (p : Char → Bool) :
    ∀ l : List Char, l.dropWhile p ≠ [] → (l.dropWhile p).getLast? = l.getLast? := by
  intro l
  induction l with
  | nil =>
    intro h
    simp [List.dropWhile] at h
  | cons a l ih =>
    intro h
    rw [List.dropWhile_cons] at h ⊢
    by_cases ha : p a = true
    · rw [if_pos ha] at h ⊢
      have hl : l ≠ [] := by
        intro e
        subst e
        simp [List.dropWhile] at h
      rw [ih h]
      cases l with
      | nil => exact absurd rfl hl
      | cons b t => rw [List.getLast?_cons_cons]
    · rw [if_neg ha]

/-- Trimming is idempotent on character lists. -/
theorem trimList_idem (l : List Char) : trimList (trimList l) = trimList l := by
  have hrev : (trimList l).reverse
      = (l.dropWhile isJsWhitespace).reverse.dropWhile isJsWhitespace := by
    unfold trimList
    rw [List.reverse_reverse]
  have hA : (trimList l).dropWhile isJsWhitespace = trimList l := by
    cases hc : trimList l with
    | nil => rfl
    | cons c t =>
      have h1 : (trimList l).head? = some c := by rw [hc]; rfl
      have h2 : ((l.dropWhile isJsWhitespace).reverse.dropWhile isJsWhitespace).getLast?
          = some c := by
        rw [← List.head?_reverse]
        exact h1
      have h3 : (l.dropWhile isJsWhitespace).reverse.dropWhile isJsWhitespace ≠ [] := by
        intro e
        rw [e] at h2
        simp at h2
      have h4 : (l.dropWhile isJsWhitespace).reverse.getLast? = some c := by
        rw [← dropWhile_getLast? isJsWhitespace ((l.dropWhile isJsWhitespace).reverse) h3]
        exact h2
      have h5 : (l.dropWhile isJsWhitespace).head? = some c := by
        rw [← List.getLast?_reverse]
        exact h4
      have h6 : isJsWhitespace c = false := by
        cases hr : l.dropWhile isJsWhitespace with
        | nil =>
          rw [hr] at h5
          simp at h5
        | cons c' t' =>
          rw [hr] at h5
          simp only [List.head?_cons, Option.some.injEq] at h5
          subst h5
          exact dropWhile_head_false isJsWhitespace l c' t' hr
      rw [List.dropWhile_cons, h6]
      simp
  calc trimList (trimList l)
      = (((trimList l).dropWhile isJsWhitespace).reverse.dropWhile isJsWhitespace).reverse := rfl
    _ = ((trimList l).reverse.dropWhile isJsWhitespace).reverse := by rw [hA]
    _ = (((l.dropWhile isJsWhitespace).reverse.dropWhile
          isJsWhitespace).dropWhile isJsWhitespace).reverse := by rw [hrev]
    _ = ((l.dropWhile isJsWhitespace).reverse.dropWhile isJsWhitespace).reverse := by
          rw [dropWhile_idem]
    _ = trimList l := rfl

/-- JavaScript trimming is idempotent. -/
theorem jsTrim_idem (s : String) : jsTrim (jsTrim s) = jsTrim s := by
  show String.mk (trimList (trimList s.data)) = String.mk (trimList s.data)
  rw [trimList_idem]

/-- Claim C10: every rule of the schema is applied to the whitespace-trimmed
value of its field, never the raw value — validating a raw value and
validating its trimmed form agree for every field; in particular, the
six-character phone `12345 ` (five digits and a trailing space) fails the
minimum-length rule, and a 101-character name whose final character is a
space passes the maximum-100 rule. -/
theorem contact_rules_use_trimmed :
    (∀ f v, contactSchemaCheck f v = contactSchemaCheck f (jsTrim v))
    ∧ contactSchemaCheck Field.phone "12345 "
        = some "Broj telefona mora imati najmanje 6 znamenki"
    ∧ contactSchemaCheck Field.name (String.mk (List.replicate 100 'a') ++ " ") = none := by
  refine ⟨?_, by decide, by decide⟩
  intro f v
  cases f <;> simp only [contactSchemaCheck, jsTrim_idem]

/-- Record assignment at a fresh key appends the binding. -/
theorem insertA_of_not_mem (m : List (String × String)) (k v : String)
    (h : ∀ q ∈ m, q.1 ≠ k) : insertA m k v = m ++ [(k, v)] := by
  induction m with
  | nil => rfl
  | cons q rest ih =>
    have hq : q.1 ≠ k := h q (List.mem_cons_self q rest)
    simp only [insertA]
    rw [if_neg hq, ih fun q' hq' => h q' (List.mem_cons_of_mem q hq')]
    rfl

/-- The `forEach` loop over issues whose paths are pairwise-distinct nonempty
keys builds exactly one binding per issue, appended in issue order. -/
theorem buildErrors_filterMap (g : Field → Option String) :
    ∀ (fs : List Field) (m : List (String × String)),
      (∀ f ∈ fs, f.key ≠ "") →
      List.Pairwise (fun a b => Field.key a ≠ Field.key b) fs →
      (∀ f ∈ fs, ∀ q ∈ m, q.1 ≠ f.key) →
      buildErrors
          (fs.filterMap fun f => (g f).map fun msg => { path := [f.key], message := msg })
          m
        = m ++ fs.filterMap fun f => (g f).map fun msg => (f.key, msg) := by
  intro fs
  induction fs with
  | nil =>
    intro m _ _ _
    simp [buildErrors]
  | cons f fs ih =>
    intro m hk hp hm
    have hp' := (List.pairwise_cons.1 hp).2
    have hphead := (List.pairwise_cons.1 hp).1
    have hk' : ∀ f' ∈ fs, Field.key f' ≠ "" :=
      fun f' h' => hk f' (List.mem_cons_of_mem f h')
    cases hg : g f with
    | none =>
      simp only [List.filterMap_cons, hg, Option.map_none']
      exact ih m hk' hp' fun f' h' => hm f' (List.mem_cons_of_mem f h')
    | some msg =>
      simp only [List.filterMap_cons, hg, Option.map_some']
      have hke : f.key ≠ "" := hk f (List.mem_cons_self f fs)
      have hmk : ∀ q ∈ m, q.1 ≠ f.key :=
        fun q hq => hm f (List.mem_cons_self f fs) q hq
      have hm' : ∀ f' ∈ fs, ∀ q ∈ m ++ [(f.key, msg)], q.1 ≠ f'.key := by
        intro f' hf' q hq
        rcases List.mem_append.1 hq with hq | hq
        · exact hm f' (List.mem_cons_of_mem f hf') q hq
        · have hq' : q = (f.key, msg) := by simpa using hq
          subst hq'
          exact hphead f' hf'
      show buildErrors _ m = _
      simp only [buildErrors]
      rw [if_neg hke, insertA_of_not_mem m f.key msg hmk,
        ih (m ++ [(f.key, msg)]) hk' hp' hm']
      simp

/-- The error record of a validation failure is exactly one binding per
failing field, keyed by the field, carrying its first failing rule's
message, in schema order. -/
theorem newErrors_eq (fv : FormValues) :
    newErrors fv
      = fields.filterMap fun f => (contactSchemaCheck f (fv.get f)).map fun m => (f.key, m) := by
  have h := buildErrors_filterMap (fun f => contactSchemaCheck f (fv.get f)) fields []
    (by decide) (by decide) (by intro f _ q hq; simp at hq)
  simpa [newErrors, contactSchemaIssues] using h

/-- The keys of the per-field entry list are the keys of the failing
fields. -/
theorem keys_of_entries (g : Field → Option String) :
    ∀ fs : List Field,
      (fs.filterMap fun f => (g f).map fun m => (f.key, m)).map Prod.fst
        = (fs.filter fun f => (g f).isSome).map Field.key := by
  intro fs
  induction fs with
  | nil => rfl
  | cons f fs ih =>
    cases hg : g f with
    | none => simp [List.filterMap_cons, List.filter_cons, hg, ih]
    | some m => simp [List.filterMap_cons, List.filter_cons, hg, ih]

/-- Claim C1: `Validate` enforces exactly the six fixed rules and nothing
else.  The keys of the produced error record are exactly the offending
fields (so there is one message per offending field and no message for any
other field — no short-circuiting at the first failing field); each entry
carries the first violated rule's message for its field; and passing the
per-field check is equivalent to the declarative rules of the spec (name
trimmed length 2-100, well-formed e-mail, phone trimmed length at least 6,
car_make_model at least 2, year at least 4, mileage non-empty). -/
theorem contact_validate_exact_rules (fv : FormValues) :
    ((newErrors fv).map Prod.fst
        = (fields.filter fun f => (contactSchemaCheck f (fv.get f)).isSome).map Field.key)
    ∧ (newErrors fv
        = fields.filterMap fun f => (contactSchemaCheck f (fv.get f)).map fun m => (f.key, m))
    ∧ (∀ f v, contactSchemaCheck f v = none ↔ specFieldOk f v) := by
  refine ⟨?_, newErrors_eq fv, ?_⟩
  · rw [newErrors_eq fv, keys_of_entries]
  · intro f v
    cases f
    case name =>
      simp only [contactSchemaCheck, specFieldOk]
      by_cases h1 : (jsTrim v).length < 2
      · simp [h1]
      · by_cases h2 : 100 < (jsTrim v).length
        · simp [h1, h2]
        · simp [h1, h2]
          omega
    case email =>
      simp only [contactSchemaCheck, specFieldOk]
      by_cases he : emailCheck (jsTrim v) = true <;> simp [he]
    case phone =>
      simp only [contactSchemaCheck, specFieldOk]
      by_cases h : (jsTrim v).length < 6 <;> simp [h] <;> try omega
    case car_make_model =>
      simp only [contactSchemaCheck, specFieldOk]
      by_cases h : (jsTrim v).length < 2 <;> simp [h] <;> omega
    case year =>
      simp only [contactSchemaCheck, specFieldOk]
      by_cases h : (jsTrim v).length < 4 <;> simp [h] <;> omega
    case mileage =>
      simp only [contactSchemaCheck, specFieldOk]
      by_cases h : (jsTrim v).length < 1 <;> simp [h] <;> omega

/-- The keys of every error record the component ever stores are schema
field keys. -/
theorem newErrors_keys_ok (fv : FormValues) :
    (newErrors fv).all (fun q => decide (q.1 ∈ fieldKeys)) = true := by
  rw [List.all_eq_true]
  intro q hq
  rw [newErrors_eq] at hq
  rcases List.mem_filterMap.1 hq with ⟨f, hf, hmap⟩
  cases hg : contactSchemaCheck f (fv.get f) with
  | none =>
    rw [hg] at hmap
    simp at hmap
  | some m =>
    rw [hg] at hmap
    simp only [Option.map_some', Option.some.injEq] at hmap
    subst hmap
    simp only [decide_eq_true_eq, fieldKeys]
    exact List.mem_map_of_mem Field.key hf

/-- After any single step, the error record is either untouched, empty, or
the freshly built validation-error record. -/
theorem step_errors (st : ComponentState) (a : Action) :
    (step st a).1.errors = st.errors
    ∨ (step st a).1.errors = []
    ∨ (step st a).1.errors = newErrors st.fieldValues := by
  cases a with
  | edit f v => left; rfl
  | fileChange files => left; rfl
  | removeAt i => left; rfl
  | submit net =>
    by_cases hb : st.isSubmitting
    · left
      simp [step, submitClick, hb]
    · by_cases hv : (contactSchemaIssues st.fieldValues).isEmpty
      · right; left
        by_cases hn : netSuccess net <;>
          simp [step, submitClick, hb, handleSubmit, beginSubmit, resolveSubmit, hv, hn]
      · right; right
        simp [step, submitClick, hb, handleSubmit, beginSubmit, hv, newErrors]

/-- Claim C7: the validation-error record only ever holds keys from the six
schema fields — it holds initially and is preserved by every operation of
the component; moreover the record is cleared at the start of every
dispatched submit attempt and ends up repopulated only when validation
fails (on a validation pass it is empty after the submit, whatever the
network outcome). -/
theorem contact_errors_invariant :
    errorKeysOk initialState = true
    ∧ (∀ st a, errorKeysOk st = true → errorKeysOk (step st a).1 = true)
    ∧ (∀ st net, st.isSubmitting = false →
        (step st (Action.submit net)).1.errors
          = if (contactSchemaIssues st.fieldValues).isEmpty then []
            else newErrors st.fieldValues) := by
  refine ⟨by decide, ?_, ?_⟩
  · intro st a h
    rcases step_errors st a with he | he | he
    · unfold errorKeysOk at h ⊢
      rw [he]
      exact h
    · unfold errorKeysOk
      rw [he]
      rfl
    · unfold errorKeysOk
      rw [he]
      exact newErrors_keys_ok st.fieldValues
  · intro st net hb
    by_cases hv : (contactSchemaIssues st.fieldValues).isEmpty
    · by_cases hn : netSuccess net <;>
        simp [step, submitClick, hb, handleSubmit, beginSubmit, resolveSubmit, hv, hn]
    · simp [step, submitClick, hb, handleSubmit, beginSubmit, hv, newErrors]

theorem contact_errors_invariant_witness :
    errorKeysOk (step anaState (Action.removeAt 0)).1 = true
    ∧ (step badState (Action.submit NetResult.transportError)).1.errors
        = if (contactSchemaIssues badState.fieldValues).isEmpty then []
          else newErrors badState.fieldValues :=
  ⟨contact_errors_invariant.2.1 anaState (Action.removeAt 0) (by decide),
   contact_errors_invariant.2.2 badState NetResult.transportError (by decide)⟩

/-- Claim C8: validation is a pure, deterministic function of the six field
values — equal inputs give identical issue lists and identical error
records — and it never mutates its input: a submit whose validation fails
leaves the field values untouched, and submitting again with the same
values reproduces exactly the same error record. -/
theorem contact_validate_pure :
    (∀ fv₁ fv₂ : FormValues, fv₁ = fv₂ →
        newErrors fv₁ = newErrors fv₂ ∧ contactSchemaIssues fv₁ = contactSchemaIssues fv₂)
    ∧ (∀ st net, st.isSubmitting = false →
        (contactSchemaIssues st.fieldValues).isEmpty = false →
        (step st (Action.submit net)).1.fieldValues = st.fieldValues
        ∧ (step (step st (Action.submit net)).1 (Action.submit net)).1.errors
            = (step st (Action.submit net)).1.errors) := by
  constructor
  · intro fv₁ fv₂ h
    subst h
    exact ⟨rfl, rfl⟩
  · intro st net hb hv
    have h1 : (step st (Action.submit net)).1
        = { st with errors := newErrors st.fieldValues, isSubmitting := false } := by
      simp [step, submitClick, hb, handleSubmit, beginSubmit, hv, newErrors]
    rw [h1]
    refine ⟨rfl, ?_⟩
    simp [step, submitClick, handleSubmit, beginSubmit, hv, newErrors]

theorem contact_validate_pure_witness :
    (step badState (Action.submit NetResult.transportError)).1.fieldValues
        = badState.fieldValues
    ∧ (step (step badState (Action.submit NetResult.transportError)).1
          (Action.submit NetResult.transportError)).1.errors
        = (step badState (Action.submit NetResult.transportError)).1.errors :=
  contact_validate_pure.2 badState NetResult.transportError (by decide) (by decide)

/-- The two schema copies agree field by field. -/
theorem contactSchemaCheck2_eq : ∀ f v, contactSchemaCheck2 f v = contactSchemaCheck f v := by
  intro f v
  cases f <;> rfl

/-- The two file-filter copies agree. -/
theorem sift2_eq : ∀ l, sift2 l = sift l := by
  intro l
  induction l with
  | nil => rfl
  | cons f t ih => simp only [sift, sift2, ih]

/-- The two `safeParse` copies agree. -/
theorem contactSchemaIssues2_eq : ∀ fv, contactSchemaIssues2 fv = contactSchemaIssues fv := by
  intro fv
  unfold contactSchemaIssues contactSchemaIssues2
  simp only [contactSchemaCheck2_eq]

/-- Claim C9 counterexample: the two variants do not agree on every input.
On Ana's valid state and a response that is HTTP-2xx but whose JSON body
says `success: false`, variant 1 treats the submission as failed (keeping
the field values and the staged file) while variant 2 treats it as
succeeded (clearing everything) — the resulting states differ. -/
theorem contact_variants_differ_cex :
    (handleSubmit anaState
        (NetResult.response true (some { success := false, message := some "error" }))).1
      ≠ (handleSubmit2 anaState
          (NetResult.response true (some { success := false, message := some "error" }))).1 := by
  decide

/-- Claim C9 as amended: the two variants agree on validation, on adding
and removing attachments, and on the state updates and toasts of every
submit outcome, *provided* their success interpretations agree on the
network outcome; they further differ exactly in the metadata keys sent and
in whether the staged attachment binaries are included in the request
(variant 1 sends none, variant 2 sends all of them). -/
theorem contact_variants_agree_modulo_interp :
    (∀ f v, contactSchemaCheck2 f v = contactSchemaCheck f v)
    ∧ (∀ st files, handleFileChange2 st files = handleFileChange st files)
    ∧ (∀ st i, removeFile2 st i = removeFile st i)
    ∧ (∀ st net, netSuccess net = netSuccess2 net → submitClick2 st net = submitClick st net)
    ∧ (∀ st, (buildRequest st).attachments = []
        ∧ (buildRequest2 st).attachments = st.uploadedFiles) := by
  refine ⟨contactSchemaCheck2_eq, ?_, ?_, ?_, fun st => ⟨rfl, rfl⟩⟩
  · intro st files
    simp only [handleFileChange, handleFileChange2, sift2_eq]
  · intro st i
    rfl
  · intro st net h
    unfold submitClick submitClick2
    by_cases hb : st.isSubmitting
    · simp [hb]
    · simp only [hb, Bool.false_eq_true, if_false]
      unfold handleSubmit handleSubmit2 beginSubmit beginSubmit2 resolveSubmit resolveSubmit2
      simp only [contactSchemaIssues2_eq, h]

theorem contact_variants_agree_modulo_interp_witness :
    submitClick2 anaState NetResult.transportError
      = submitClick anaState NetResult.transportError :=
  contact_variants_agree_modulo_interp.2.2.2.1 anaState NetResult.transportError (by decide)

end ContactForm
